import Mathlib

/-!
Verification of the SEACE procurement-notice scraper (`src/scraper.py`,
`src/main.py`).  The Python code is shallowly embedded: pure text-munging
helpers become Lean functions over `List Char`, `datetime` becomes an
explicit record with a lexicographic key, the Playwright browser is
abstracted as the list of per-page card query results, and the per-card
`try/except` together with the one raising code path is an `Except`.
-/

namespace Seace

/-! ## Character helpers

Python's `str.upper` / `str.lower` and `re.IGNORECASE` are modelled on the
character repertoire that actually occurs in this repository's constants
and card text: ASCII letters plus the Spanish accented vowels and enye. -/

def lowerChar (c : Char) : Char :=
  if 'A' ≤ c ∧ c ≤ 'Z' then Char.ofNat (c.toNat + 32)
  else if c = 'Á' then 'á' else if c = 'É' then 'é'
  else if c = 'Í' then 'í' else if c = 'Ó' then 'ó'
  else if c = 'Ú' then 'ú' else if c = 'Ñ' then 'ñ'
  else if c = 'Ü' then 'ü' else c

def upperChar (c : Char) : Char :=
  if 'a' ≤ c ∧ c ≤ 'z' then Char.ofNat (c.toNat - 32)
  else if c = 'á' then 'Á' else if c = 'é' then 'É'
  else if c = 'í' then 'Í' else if c = 'ó' then 'Ó'
  else if c = 'ú' then 'Ú' else if c = 'ñ' then 'Ñ'
  else if c = 'ü' then 'Ü' else c

/-- Python `\s` (and `str.strip`) whitespace, ASCII part. -/
def isPySpace (c : Char) : Bool :=
  c = ' ' ∨ c = '\t' ∨ c = '\n' ∨ c = '\r' ∨ c = '\x0b' ∨ c = '\x0c'

/-- Python regex `\d`, restricted to ASCII digits. -/
def isDigitCh (c : Char) : Bool := '0' ≤ c ∧ c ≤ '9'

/-! ## List-of-characters utilities -/

/-- Python `needle in hay` substring test. -/
def containsSub (needle : List Char) : List Char → Bool
  | [] => needle.isEmpty
  | c :: t => needle.isPrefixOf (c :: t) || containsSub needle t

/-- Python `str.strip()`. -/
def stripChars (cs : List Char) : List Char :=
  ((cs.dropWhile isPySpace).reverse.dropWhile isPySpace).reverse

/-- Python `str.split(sep)` for a one-character separator. -/
def splitOnChar (sep : Char) : List Char → List (List Char)
  | [] => [[]]
  | c :: rest =>
    let r := splitOnChar sep rest
    if c = sep then [] :: r
    else
      match r with
      | h :: t => (c :: h) :: t
      | [] => [[c]]

/-- String-level wrappers used by the embedded Python functions. -/
def pyUpper (s : String) : String := String.mk (s.data.map upperChar)

def pyLower (s : String) : String := String.mk (s.data.map lowerChar)

def pyStrip (s : String) : String := String.mk (stripChars s.data)

def strContains (hay needle : String) : Bool := containsSub needle.data hay.data

def strStartsWith (s pre : String) : Bool := pre.data.isPrefixOf s.data

/-- Match a (case-sensitive) literal pattern at the head of the input,
returning the remainder on success. -/
def matchLit : List Char → List Char → Option (List Char)
  | [], cs => some cs
  | _ :: _, [] => none
  | p :: ps, c :: cs => if c = p then matchLit ps cs else none

/-- Match a lowercase literal pattern case-insensitively (the input is
lowered character-wise) at the head of the input. -/
def matchCI : List Char → List Char → Option (List Char)
  | [], cs => some cs
  | _ :: _, [] => none
  | p :: ps, c :: cs => if lowerChar c = p then matchCI ps cs else none

/-- First alternative of a regex alternation that matches at the head
(case-insensitively); the alternations in `scraper.py` have pairwise
distinct first letters, so at most one alternative can match. -/
def matchCIany (pats : List (List Char)) (cs : List Char) : Option (List Char) :=
  match pats with
  | [] => none
  | p :: ps =>
    match matchCI p cs with
    | some rest => some rest
    | none => matchCIany ps cs

/-! ## The `dd/mm/yyyy` token scanner (regex `\d{2}/\d{2}/\d{4}`) -/

/-- Does a `\d{2}/\d{2}/\d{4}` token start at the head?  Returns it. -/
def dateTokenAt (cs : List Char) : Option String :=
  match cs with
  | d1 :: d2 :: s1 :: m1 :: m2 :: s2 :: y1 :: y2 :: y3 :: y4 :: _ =>
    if s1 = '/' ∧ s2 = '/' ∧ ([d1, d2, m1, m2, y1, y2, y3, y4].all isDigitCh) then
      some (String.mk [d1, d2, '/', m1, m2, '/', y1, y2, y3, y4])
    else none
  | _ => none

/-- `re.search(r"(\d{2}/\d{2}/\d{4})", text)`: first token anywhere. -/
def findDateToken : List Char → Option String
  | [] => none
  | c :: rest =>
    match dateTokenAt (c :: rest) with
    | some t => some t
    | none => findDateToken rest

/-- The `.*?(\d{2}/\d{2}/\d{4})` tail of the label regexes: the first
token reachable without crossing a newline (`.` does not match `\n`). -/
def findDateTokenSameLine : List Char → Option String
  | [] => none
  | c :: rest =>
    match dateTokenAt (c :: rest) with
    | some t => some t
    | none => if c = '\n' then none else findDateTokenSameLine rest

/-- `re.search(labelAlternation ++ ".*?(\d{2}/\d{2}/\d{4})", text, re.IGNORECASE)`:
scan start positions left to right; where a label alternative matches, take
the first same-line token after it; otherwise keep scanning. -/
def findAfterLabels (labels : List (List Char)) : List Char → Option String
  | [] => none
  | c :: rest =>
    match matchCIany labels (c :: rest) with
    | some tail =>
      match findDateTokenSameLine tail with
      | some t => some t
      | none => findAfterLabels labels rest
    | none => findAfterLabels labels rest

/-! ## `datetime` -/

structure Datetime where
  year : Nat
  month : Nat
  day : Nat
  hour : Nat
  minute : Nat
  second : Nat
  deriving Repr, DecidableEq

/-- Python `datetime` comparison is lexicographic on the fields; on the
in-range field values produced by `strptime` (month ≤ 12, day ≤ 31,
hour < 24, minute/second < 60) that order coincides with the order of
this mixed-radix key. -/
def Datetime.key (d : Datetime) : Nat :=
  ((((d.year * 13 + d.month) * 32 + d.day) * 24 + d.hour) * 60 + d.minute) * 60 + d.second

def isLeap (y : Nat) : Bool := y % 4 = 0 ∧ (y % 100 ≠ 0 ∨ y % 400 = 0)

def daysInMonth (y m : Nat) : Nat :=
  if m = 2 then (if isLeap y then 29 else 28)
  else if m = 4 ∨ m = 6 ∨ m = 9 ∨ m = 11 then 30
  else 31

def digitsToNat (cs : List Char) : Nat :=
  cs.foldl (fun acc c => acc * 10 + (c.toNat - '0'.toNat)) 0

/-- `datetime.strptime(s, "%d/%m/%Y")`, returning `none` for `ValueError`.
CPython's `_strptime` accepts 1–2 digits for `%d` (value 1–31) and `%m`
(value 1–12), exactly 4 digits for `%Y`, the literal separators, and no
leftover characters; `datetime` construction then validates the calendar
date (year ≥ 1, day within the month, Gregorian leap rule). -/
def strptime_dmy (s : String) : Option Datetime :=
  match splitOnChar '/' s.data with
  | [ds, ms, ys] =>
    if (1 ≤ ds.length ∧ ds.length ≤ 2 ∧ ds.all isDigitCh) ∧
       (1 ≤ ms.length ∧ ms.length ≤ 2 ∧ ms.all isDigitCh) ∧
       (ys.length = 4 ∧ ys.all isDigitCh) then
      let d := digitsToNat ds
      let m := digitsToNat ms
      let y := digitsToNat ys
      if (1 ≤ m ∧ m ≤ 12) ∧ (1 ≤ d ∧ d ≤ 31) ∧ d ≤ daysInMonth y m ∧ 1 ≤ y then
        some ⟨y, m, d, 0, 0, 0⟩
      else none
    else none
  | _ => none

def padNum (n width : Nat) : String :=
  let s := toString n
  String.mk (List.replicate (width - s.length) '0') ++ s

/-- `datetime.strftime("%d/%m/%Y")` (zero-padded fields). -/
def strftime_dmy (d : Datetime) : String :=
  padNum d.day 2 ++ "/" ++ padNum d.month 2 ++ "/" ++ padNum d.year 4

/-- `f_fin.replace(hour=23, minute=59, second=59)`. -/
def endOfDay (d : Datetime) : Datetime :=
  { d with hour := 23, minute := 59, second := 59 }

/-! ## Module-level constants of `scraper.py` -/

def SEACE_URL : String := "https://prod6.seace.gob.pe/buscador-publico/contrataciones"

def ESTADOS_IGNORAR : List String :=
  ["VIGENTE", "EN EVALUACION", "EN EVALUACIÓN",
   "ADJUDICADO", "DESIERTO", "CANCELADO",
   "CONCLUIDO", "NULO", "SUSPENDIDO"]

def DEPARTAMENTOS_PERU : List String :=
  ["AMAZONAS", "ANCASH", "APURIMAC", "AREQUIPA", "AYACUCHO", "CAJAMARCA", "CALLAO",
   "CUSCO", "HUANCAVELICA", "HUANUCO", "ICA", "JUNIN", "LA LIBERTAD",
   "LAMBAYEQUE", "LIMA", "LORETO", "MADRE DE DIOS", "MOQUEGUA", "PASCO",
   "PIURA", "PUNO", "SAN MARTIN", "TACNA", "TUMBES", "UCAYALI"]

/-! ## `limpiar_texto` -/

/-- Collapse each run of whitespace to one space (regex `\s+` → `" "`);
`prevSpace` records whether the previous character belonged to a run. -/
def collapseWsAux (prevSpace : Bool) : List Char → List Char
  | [] => []
  | c :: rest =>
    if isPySpace c then
      if prevSpace then collapseWsAux true rest
      else ' ' :: collapseWsAux true rest
    else c :: collapseWsAux false rest

def collapseWs (cs : List Char) : List Char := collapseWsAux false cs

/-- `limpiar_texto`: `re.sub(r"\s+", " ", texto).strip()` (empty input
yields the empty string). -/
def limpiar_texto (texto : String) : String :=
  if texto = "" then "" else String.mk (stripChars (collapseWs texto.data))

/-! ## `parse_fecha_regex`

The first branch, `re.search(r"Publicaci[oó]n.*?(\d{2}/\d{2}/\d{4})", t,
re.IGNORECASE)`, calls `strptime` **without** a `try`, so an invalid
calendar token found there raises `ValueError` — embedded as
`Except.error ()`.  The fallback branch wraps its `strptime` in
`try/except` and yields `None` on failure. -/

def pubLabels : List (List Char) := ["publicacion".data, "publicación".data]

def parse_fecha_regex (texto_completo : String) : Except Unit (Option Datetime) :=
  match findAfterLabels pubLabels texto_completo.data with
  | some tok =>
    match strptime_dmy tok with
    | some d => Except.ok (some d)
    | none => Except.error ()
  | none =>
    match findDateToken texto_completo.data with
    | some tok => Except.ok (strptime_dmy tok)
    | none => Except.ok none

/-! ## `extraer_tipo_exacto` -/

def keywords_obra : List String :=
  ["MEJORAMIENTO", "CREACION", "REHABILITACION", "CONSTRUCCION", "INSTALACION",
   "EJECUCION DE OBRA"]

def keywords_servicio : List String :=
  ["MANTENIMIENTO", "ALQUILER", "SEGURIDAD", "VIGILANCIA", "LIMPIEZA", "TRANSPORTE",
   "SEGURO", "LOCACION", "CONFECCION", "SERVICIO"]

def keywords_bien : List String :=
  ["ADQUISICION", "COMPRA", "SUMINISTRO", "CAMIONETA", "COMBUSTIBLE", "EQUIPO",
   "MATERIAL", "INSUMO"]

/-- `desc.upper().strip()`. -/
def tipoNorm (desc : String) : String := pyStrip (pyUpper desc)

def extraer_tipo_exacto (desc : String) : String :=
  let dUpper := tipoNorm desc
  if strStartsWith dUpper "BIEN" ∨ strContains dUpper "BIEN:" then "Bien"
  else if strStartsWith dUpper "SERVICIO" ∨ strContains dUpper "SERVICIO:" then "Servicio"
  else if strStartsWith dUpper "OBRA" ∨ strContains dUpper "OBRA:" then "Obra"
  else if strContains dUpper "CONSULTOR" then "Consultoría"
  else if keywords_obra.any (fun k => strContains dUpper k) then "Obra"
  else if keywords_servicio.any (fun k => strContains dUpper k) then "Servicio"
  else if keywords_bien.any (fun k => strContains dUpper k) then "Bien"
  else "Otro"

/-! ## `inferir_region`

`re.search(r"UBICACI[ÓO]N[:\s]+([^:\n]+)", texto_busqueda)` — no
IGNORECASE flag; the text was uppercased first.  `[:\s]+` is greedy and
followed by the mandatory capture `([^:\n]+)`, so regex backtracking can
hand whitespace back to the capture at end of string. -/

def isColonOrSpace (c : Char) : Bool := c = ':' ∨ isPySpace c

def isCaptureChar (c : Char) : Bool := c ≠ ':' ∧ c ≠ '\n'

/-- Backtracking inside the `[:\s]+` run when the string ends right after
it: the greedy class keeps `j+1` characters and the capture takes the
rest, for the largest such split whose first captured char is in
`[^:\n]`. -/
def btCapture (run : List Char) : Nat → Option String
  | 0 => none
  | j + 1 =>
    match run.drop (j + 1) with
    | c :: t =>
      if isCaptureChar c then some (String.mk ((c :: t).takeWhile isCaptureChar))
      else btCapture run j
    | [] => btCapture run j

/-- Match `[:\s]+([^:\n]+)` at the head, returning the capture. -/
def captureAfterLabel (cs : List Char) : Option String :=
  let run := cs.takeWhile isColonOrSpace
  if run.isEmpty then none
  else
    match cs.drop run.length with
    | c :: t => some (String.mk ((c :: t).takeWhile isCaptureChar))
    | [] => btCapture run (run.length - 1)

def ubiLabels : List (List Char) := ["UBICACIÓN".data, "UBICACION".data]

/-- Case-sensitive counterpart of `matchCIany` (the `UBICACI[ÓO]N` regex
carries no IGNORECASE flag). -/
def matchLitAny (pats : List (List Char)) (cs : List Char) : Option (List Char) :=
  match pats with
  | [] => none
  | p :: ps =>
    match matchLit p cs with
    | some rest => some rest
    | none => matchLitAny ps cs

/-- `re.search(r"UBICACI[ÓO]N[:\s]+([^:\n]+)", t)`: leftmost label
occurrence whose tail admits the rest of the pattern. -/
def ubicacionCapture : List Char → Option String
  | [] => none
  | c :: rest =>
    match matchLitAny ubiLabels (c :: rest) with
    | some tail =>
      match captureAfterLabel tail with
      | some cap => some cap
      | none => ubicacionCapture rest
    | none => ubicacionCapture rest

def inferir_region (entidad texto_tarjeta : String) : String :=
  let texto_busqueda := pyUpper (entidad ++ " " ++ texto_tarjeta)
  let fullScan :=
    match DEPARTAMENTOS_PERU.find? (fun d => strContains texto_busqueda d) with
    | some d => d
    | none => "NO IDENTIFICADO"
  match ubicacionCapture texto_busqueda.data with
  | some posible_ubi =>
    match DEPARTAMENTOS_PERU.find? (fun d => strContains posible_ubi d) with
    | some _ => pyStrip posible_ubi
    | none => fullScan
  | none => fullScan

/-! ## `extraer_fechas_cronograma` -/

def inicioLabels : List (List Char) := ["inicio".data, "desde".data, "presentación".data]

def finLabels : List (List Char) := ["fin".data, "hasta".data, "cierre".data, "límite".data]

structure Cronograma where
  inicio : Option String
  fin : Option String
  deriving Repr, DecidableEq

def extraer_fechas_cronograma (texto_tarjeta : String) : Cronograma :=
  { inicio := findAfterLabels inicioLabels texto_tarjeta.data,
    fin := findAfterLabels finLabels texto_tarjeta.data }

/-! ## The crawl (`run_scraper`)

The Playwright browser is abstracted away: a `Card` carries what the loop
reads from a card handle — its `inner_text()` and, standing in for
`inner_html()` plus the BeautifulSoup query, the `href` attributes of its
anchors in document order.  The crawl input is the list of successive
`query_selector_all` results, one entry per visited page; the end of that
list models the absence of an enabled next-page control. -/

structure Card where
  text : String
  hrefs : List String
  deriving Repr, DecidableEq

/-- One element of `items_data` (the dict literal of `scraper.py`). -/
structure Item where
  nomenclatura : String
  entidad_solicitante : String
  descripcion : String
  objeto : String
  region : String
  fecha_publicacion : String
  fecha_inicio : String
  fecha_fin : String
  moneda : String
  valor_referencial : String
  descripcion_item : String
  url : String
  deriving Repr, DecidableEq

/-- Does the string start with a URI scheme (`letter (letter|digit|+|-|.)* :`),
as `urllib.parse` recognises one? -/
def schemeChars : List Char → Bool
  | [] => false
  | c :: rest => if c = ':' then true
    else if c.isAlphanum ∨ c = '+' ∨ c = '-' ∨ c = '.' then schemeChars rest
    else false

def hasScheme (s : String) : Bool :=
  match s.data with
  | [] => false
  | c :: rest => c.isAlpha && schemeChars rest

/-- `urllib.parse.urljoin(SEACE_URL, href)` for the fixed base
`https://prod6.seace.gob.pe/buscador-publico/contrataciones`: an href
carrying its own scheme is kept, a network-path (`//`) or absolute-path
(`/`) reference is resolved against the base's scheme/host, and a
relative reference is resolved against the base path's directory.
(Dot-segment normalisation and pure query/fragment references are not
modelled; no href reaching this call is of those shapes.) -/
def urljoin_seace (href : String) : String :=
  if href = "" then SEACE_URL
  else if hasScheme href then href
  else if strStartsWith href "//" then "https:" ++ href
  else if strStartsWith href "/" then "https://prod6.seace.gob.pe" ++ href
  else "https://prod6.seace.gob.pe/buscador-publico/" ++ href

def DETAIL_PATH : String := "/buscador-publico/contrataciones/"

/-- `soup.select_one("a[href*='/buscador-publico/contrataciones/']")`
followed by `urljoin` and the `if not enlace: continue` truthiness test:
`none` when no anchor matches or the joined URL is falsy (empty). -/
def resolveLink (c : Card) : Option String :=
  match c.hrefs.find? (fun h => strContains h DETAIL_PATH) with
  | none => none
  | some h =>
    let enlace := urljoin_seace h
    if enlace = "" then none else some enlace

/-- `re.match(r"^(Bien|Servicio|Obra|Consultor)", line, re.IGNORECASE)`. -/
def tipoPrefixLine (line : String) : Bool :=
  (matchCIany ["bien".data, "servicio".data, "obra".data, "consultor".data]
    line.data).isSome

/-- The record assembled from one accepted card (`items_data.append`),
given its parsed publication date and resolved link. -/
def buildItem (c : Card) (fecha_obj : Datetime) (enlace : String) : Item :=
  let raw_lines := ((splitOnChar '\n' c.text.data).map
    (fun l => String.mk (stripChars l))).filter (fun l => l ≠ "")
  let clean_lines := raw_lines.filter (fun line => ¬ ESTADOS_IGNORAR.contains (pyUpper line))
  let nomenclatura := clean_lines.getD 0 "S/D"
  let entidad := clean_lines.getD 1 "S/D"
  let descripcion :=
    match clean_lines.find? tipoPrefixLine with
    | some line => line
    | none => clean_lines.getD 2 "S/D"
  let fechas_crono := extraer_fechas_cronograma c.text
  { nomenclatura := nomenclatura,
    entidad_solicitante := entidad,
    descripcion := descripcion,
    objeto := extraer_tipo_exacto descripcion,
    region := inferir_region entidad c.text,
    fecha_publicacion := strftime_dmy fecha_obj,
    fecha_inicio := fechas_crono.inicio.getD "Ver Link",
    fecha_fin := fechas_crono.fin.getD "Ver Link",
    moneda := "SOLES",
    valor_referencial := "---",
    descripcion_item := descripcion,
    url := enlace }

inductive CardOutcome where
  | skip : CardOutcome
  | stop : CardOutcome
  | accept : Item → CardOutcome
  deriving Repr, DecidableEq

/-- The body of the per-card loop: `skip` covers `continue` (dateless
card, too-new card, unresolvable link) and the `except: continue` that
absorbs the `ValueError` escaping `parse_fecha_regex`; `stop` is the
`stop_scraping = True; break` branch for a card older than the start
bound. -/
def cardOutcome (f_inicio f_fin : Datetime) (c : Card) : CardOutcome :=
  match parse_fecha_regex c.text with
  | Except.error _ => CardOutcome.skip
  | Except.ok none => CardOutcome.skip
  | Except.ok (some fecha_obj) =>
    if f_fin.key < fecha_obj.key then CardOutcome.skip
    else if fecha_obj.key < f_inicio.key then CardOutcome.stop
    else
      match resolveLink c with
      | none => CardOutcome.skip
      | some enlace => CardOutcome.accept (buildItem c fecha_obj enlace)

/-- The inner `for card in cards` loop: threads `items_data` and returns
it with the `stop_scraping` flag; the `len(items_data) >= limit_count`
check breaks out before each card. -/
def processCards (f_inicio f_fin : Datetime) (limit : Nat) :
    List Card → List Item → List Item × Bool
  | [], acc => (acc, false)
  | c :: rest, acc =>
    if limit ≤ acc.length then (acc, false)
    else
      match cardOutcome f_inicio f_fin c with
      | CardOutcome.skip => processCards f_inicio f_fin limit rest acc
      | CardOutcome.stop => (acc, true)
      | CardOutcome.accept it => processCards f_inicio f_fin limit rest (acc ++ [it])

def max_paginas : Nat := 300

/-- The outer `while page_count <= max_paginas and not stop_scraping`
loop.  Each recursive step consumes one entry of `pages` (one
`query_selector_all` result); an exhausted list behaves as the missing
next-page button (`break`). -/
def crawlPages (f_inicio f_fin : Datetime) (limit : Nat) :
    Nat → List (List Card) → List Item → List Item
  | _, [], acc => acc
  | page_count, cards :: rest, acc =>
    if max_paginas < page_count then acc
    else if limit ≤ acc.length then acc
    else if cards.isEmpty then acc
    else
      match processCards f_inicio f_fin limit cards acc with
      | (acc2, true) => acc2
      | (acc2, false) => crawlPages f_inicio f_fin limit (page_count + 1) rest acc2

/-- `run_scraper(fecha_inicio_str, fecha_fin_str, max_items)` — date-bound
parsing (malformed bounds return `[]`), end-of-day normalisation, the
`limit_count` default of 999999 for an absent or non-positive cap, then
the crawl over the abstracted page sequence. -/
def run_scraper (fecha_inicio_str fecha_fin_str : String) (max_items : Option Int)
    (pages : List (List Card)) : List Item :=
  match strptime_dmy fecha_inicio_str, strptime_dmy fecha_fin_str with
  | some f_inicio, some f_fin0 =>
    let f_fin := endOfDay f_fin0
    let limit_count : Nat :=
      match max_items with
      | some m => if 0 < m then m.toNat else 999999
      | none => 999999
    crawlPages f_inicio f_fin limit_count 1 pages []
  | _, _ => []

/-! ## Enrichment pass

Modelled from the spec: the enrichment pass (the `incluir_cubso` flag that
`main.py` passes to `run_scraper`) is absent from `src/scraper.py`, whose
`run_scraper` takes only three parameters; only its caller survives under
`src/`.  Spec §4.6: fetch the detail page with a bounded timeout; a
failed fetch yields the "fetch error" sentinel on that record only; an
absent link yields the "no link" sentinel without any fetch; otherwise a
table cell whose class matches the secondary-code pattern and whose text
is a pure 13–16 digit run wins, then a whole-document search for a
standalone 13–16 digit run, then the "not found" sentinel. -/

structure DetailPage where
  /-- Table cells in document order: class attribute and cell text. -/
  cells : List (String × String)
  fullText : String
  deriving Repr, DecidableEq

def isNumeric13to16 (s : String) : Bool :=
  ¬ s.data.isEmpty ∧ s.data.all isDigitCh ∧ 13 ≤ s.data.length ∧ s.data.length ≤ 16

/-- Modelled from the spec: the maximal digit runs of the document text,
for the "standalone 13–16 digit numeric run" fallback. -/
def digitRuns : List Char → List (List Char)
  | [] => []
  | c :: rest =>
    if isDigitCh c then
      match digitRuns rest with
      | run :: runs =>
        match rest with
        | r :: _ => if isDigitCh r then (c :: run) :: runs else [c] :: run :: runs
        | [] => [c] :: runs
      | [] => [[c]]
    else digitRuns rest

/-- Modelled from the spec: extract the secondary code from a fetched
detail page — class-matched numeric cell first, whole-document digit-run
fallback, else the "not found" sentinel. -/
def extract_codigo (doc : DetailPage) : String :=
  match doc.cells.find? (fun cell =>
      strContains (pyLower cell.1) "cubso" ∧ isNumeric13to16 (pyStrip cell.2)) with
  | some cell => pyStrip cell.2
  | none =>
    match (digitRuns doc.fullText.data).find? (fun run => 13 ≤ run.length ∧ run.length ≤ 16) with
    | some run => String.mk run
    | none => "not found"

/-- Modelled from the spec: enrich one accepted record.  `fetch` stands
for the detail-page visit; `Except.error` is a fetch that throws or times
out.  A record with no link gets the "no link" sentinel without `fetch`
being consulted. -/
def enrich_item (fetch : String → Except Unit DetailPage) (it : Item) : Item × String :=
  if it.url = "" then (it, "no link")
  else
    match fetch it.url with
    | Except.error _ => (it, "fetch error")
    | Except.ok doc => (it, extract_codigo doc)

/-- Modelled from the spec: the sequential enrichment pass over the
already-assembled result list. -/
def enrich_pass (fetch : String → Except Unit DetailPage) (items : List Item) :
    List (Item × String) :=
  items.map (enrich_item fetch)

/-! ## Shape of extracted `dd/mm/yyyy` tokens -/

def isDateShape (s : String) : Bool :=
  match s.data with
  | [a1, a2, a3, a4, a5, a6, a7, a8, a9, a10] =>
    isDigitCh a1 && isDigitCh a2 && (a3 = '/') && isDigitCh a4 && isDigitCh a5 &&
      (a6 = '/') && isDigitCh a7 && isDigitCh a8 && isDigitCh a9 && isDigitCh a10
  | _ => false

/-! ## Concrete cards used by witnesses -/

def cardA : Card :=
  { text := "CM-1-2025\nVIGENTE\nMunicipalidad de Lima\nBien: Adquisición de equipos\nPublicación: 15/06/2025\nInicio: 20/06/2025 Hasta: 25/06/2025",
    hrefs := ["/buscador-publico/contrataciones/ficha/1"] }

def urlA : String := "https://prod6.seace.gob.pe/buscador-publico/contrataciones/ficha/1"

def dA : Datetime := ⟨2025, 6, 15, 0, 0, 0⟩

def itemA : Item := buildItem cardA dA urlA

def cardStop : Card :=
  { text := "CM-2-2020\nEntidad\nObra: algo\nPublicación: 01/01/2020",
    hrefs := ["/buscador-publico/contrataciones/ficha/2"] }

/-! ## Shared lemmas about the crawl -/

theorem process_provenance {f_inicio f_fin : Datetime} {limit : Nat} {it : Item} :
    ∀ (cs : List Card) (acc : List Item),
      it ∈ (processCards f_inicio f_fin limit cs acc).1 →
      it ∈ acc ∨ ∃ c, cardOutcome f_inicio f_fin c = CardOutcome.accept it := by
  intro cs
  induction cs with
  | nil => intro acc h; exact Or.inl h
  | cons c rest ih =>
    intro acc h
    simp only [processCards] at h
    by_cases hl : limit ≤ acc.length
    · rw [if_pos hl] at h; exact Or.inl h
    · rw [if_neg hl] at h
      cases hco : cardOutcome f_inicio f_fin c with
      | skip => rw [hco] at h; exact ih acc h
      | stop => rw [hco] at h; exact Or.inl h
      | accept it' =>
        rw [hco] at h
        rcases ih (acc ++ [it']) h with hmem | hex
        · rcases List.mem_append.mp hmem with h1 | h2
          · exact Or.inl h1
          · have : it = it' := by simpa using h2
            exact Or.inr ⟨c, this ▸ hco⟩
        · exact Or.inr hex

theorem crawl_provenance {f_inicio f_fin : Datetime} {limit : Nat} {it : Item} :
    ∀ (pages : List (List Card)) (page_count : Nat) (acc : List Item),
      it ∈ crawlPages f_inicio f_fin limit page_count pages acc →
      it ∈ acc ∨ ∃ c, cardOutcome f_inicio f_fin c = CardOutcome.accept it := by
  intro pages
  induction pages with
  | nil => intro pc acc h; exact Or.inl h
  | cons cards rest ih =>
    intro pc acc h
    simp only [crawlPages] at h
    by_cases h1 : max_paginas < pc
    · rw [if_pos h1] at h; exact Or.inl h
    · rw [if_neg h1] at h
      by_cases h2 : limit ≤ acc.length
      · rw [if_pos h2] at h; exact Or.inl h
      · rw [if_neg h2] at h
        by_cases h3 : cards.isEmpty
        · rw [if_pos h3] at h; exact Or.inl h
        · rw [if_neg h3] at h
          rcases hp : processCards f_inicio f_fin limit cards acc with ⟨acc2, st⟩
          rw [hp] at h
          cases st with
          | true =>
            simp only at h
            have : it ∈ (processCards f_inicio f_fin limit cards acc).1 := by
              rw [hp]; exact h
            exact process_provenance cards acc this
          | false =>
            simp only at h
            rcases ih (pc + 1) acc2 h with hmem | hex
            · have : it ∈ (processCards f_inicio f_fin limit cards acc).1 := by
                rw [hp]; exact hmem
              exact process_provenance cards acc this
            · exact Or.inr hex

theorem accept_inv {f_inicio f_fin : Datetime} {c : Card} {it : Item}
    (h : cardOutcome f_inicio f_fin c = CardOutcome.accept it) :
    ∃ d enlace, parse_fecha_regex c.text = Except.ok (some d) ∧
      d.key ≤ f_fin.key ∧ f_inicio.key ≤ d.key ∧
      resolveLink c = some enlace ∧ it = buildItem c d enlace := by
  unfold cardOutcome at h
  cases hp : parse_fecha_regex c.text with
  | error e => rw [hp] at h; cases h
  | ok o =>
    cases o with
    | none => rw [hp] at h; cases h
    | some d =>
      rw [hp] at h
      dsimp only at h
      by_cases h1 : f_fin.key < d.key
      · rw [if_pos h1] at h; cases h
      · rw [if_neg h1] at h
        by_cases h2 : d.key < f_inicio.key
        · rw [if_pos h2] at h; cases h
        · rw [if_neg h2] at h
          cases hr : resolveLink c with
          | none => rw [hr] at h; cases h
          | some enlace =>
            rw [hr] at h
            cases h
            exact ⟨d, enlace, rfl, Nat.le_of_not_lt h1, Nat.le_of_not_lt h2, rfl, rfl⟩

theorem dateTokenAt_shape {cs : List Char} {t : String}
    (h : dateTokenAt cs = some t) : isDateShape t = true := by
  unfold dateTokenAt at h
  split at h
  · rename_i d1 d2 s1 m1 m2 s2 y1 y2 y3 y4 _
    split_ifs at h with hc
    · cases h
      obtain ⟨hs1, hs2, hall⟩ := hc
      subst hs1; subst hs2
      simp only [List.all_cons, List.all_nil, Bool.and_eq_true] at hall
      simp [isDateShape, hall.1, hall.2.1, hall.2.2.1, hall.2.2.2.1,
        hall.2.2.2.2.1, hall.2.2.2.2.2.1, hall.2.2.2.2.2.2.1]
      exact hall.2.2.2.2.2.2.2.1
  · cases h

theorem findDateTokenSameLine_shape {t : String} :
    ∀ cs : List Char, findDateTokenSameLine cs = some t → isDateShape t = true := by
  intro cs
  induction cs with
  | nil => intro h; cases h
  | cons c rest ih =>
    intro h
    simp only [findDateTokenSameLine] at h
    cases hd : dateTokenAt (c :: rest) with
    | some t' =>
      rw [hd] at h
      cases h
      exact dateTokenAt_shape hd
    | none =>
      rw [hd] at h
      dsimp only at h
      by_cases hn : c = '\n'
      · rw [if_pos hn] at h; cases h
      · rw [if_neg hn] at h; exact ih h

theorem findAfterLabels_shape {labels : List (List Char)} {t : String} :
    ∀ cs : List Char, findAfterLabels labels cs = some t → isDateShape t = true := by
  intro cs
  induction cs with
  | nil => intro h; cases h
  | cons c rest ih =>
    intro h
    simp only [findAfterLabels] at h
    cases hm : matchCIany labels (c :: rest) with
    | some tail =>
      rw [hm] at h
      dsimp only at h
      cases hf : findDateTokenSameLine tail with
      | some t' =>
        rw [hf] at h
        cases h
        exact findDateTokenSameLine_shape tail hf
      | none => rw [hf] at h; exact ih h
    | none => rw [hm] at h; exact ih h

theorem findDateToken_shape {t : String} :
    ∀ cs : List Char, findDateToken cs = some t → isDateShape t = true := by
  intro cs
  induction cs with
  | nil => intro h; cases h
  | cons c rest ih =>
    intro h
    simp only [findDateToken] at h
    cases hd : dateTokenAt (c :: rest) with
    | some t' =>
      rw [hd] at h
      cases h
      exact dateTokenAt_shape hd
    | none => rw [hd] at h; exact ih h

theorem schemeChars_https_tail (l : List Char) :
    schemeChars ('t' :: 't' :: 'p' :: 's' :: ':' :: l) = true := by
  simp [schemeChars]

theorem hasScheme_append_https (s : String) :
    hasScheme ("https:" ++ s) = true := by
  have hdata : ("https:" ++ s).data = 'h' :: 't' :: 't' :: 'p' :: 's' :: ':' :: s.data := by
    rw [String.data_append]; rfl
  unfold hasScheme
  rw [hdata]
  simp [schemeChars_https_tail]

theorem hasScheme_append_host (s : String) :
    hasScheme ("https://prod6.seace.gob.pe" ++ s) = true := by
  have hdata : ∃ l, ("https://prod6.seace.gob.pe" ++ s).data
      = 'h' :: 't' :: 't' :: 'p' :: 's' :: ':' :: l := by
    rw [String.data_append]; exact ⟨_, rfl⟩
  obtain ⟨l, hl⟩ := hdata
  unfold hasScheme
  rw [hl]
  simp [schemeChars_https_tail]

theorem hasScheme_append_dir (s : String) :
    hasScheme ("https://prod6.seace.gob.pe/buscador-publico/" ++ s) = true := by
  have hdata : ∃ l, ("https://prod6.seace.gob.pe/buscador-publico/" ++ s).data
      = 'h' :: 't' :: 't' :: 'p' :: 's' :: ':' :: l := by
    rw [String.data_append]; exact ⟨_, rfl⟩
  obtain ⟨l, hl⟩ := hdata
  unfold hasScheme
  rw [hl]
  simp [schemeChars_https_tail]

/-- Every URL `urljoin` produces from the absolute listing base carries a
scheme. -/
theorem urljoin_seace_hasScheme (href : String) :
    hasScheme (urljoin_seace href) = true := by
  unfold urljoin_seace
  split_ifs with h1 h2 h3 h4
  · decide
  · exact h2
  · exact hasScheme_append_https href
  · exact hasScheme_append_host href
  · exact hasScheme_append_dir href

theorem resolveLink_some {c : Card} {u : String} (h : resolveLink c = some u) :
    u ≠ "" ∧ hasScheme u = true := by
  unfold resolveLink at h
  cases hf : c.hrefs.find? (fun h => strContains h DETAIL_PATH) with
  | none => rw [hf] at h; cases h
  | some href =>
    rw [hf] at h
    dsimp only at h
    split_ifs at h with hempty
    cases h
    exact ⟨hempty, urljoin_seace_hasScheme href⟩

/-- Unfolding `run_scraper` when both bounds parse. -/
theorem run_scraper_eq {s1 s2 : String} {f_inicio f_fin : Datetime}
    (h1 : strptime_dmy s1 = some f_inicio) (h2 : strptime_dmy s2 = some f_fin)
    (m : Option Int) (pages : List (List Card)) :
    run_scraper s1 s2 m pages =
      crawlPages f_inicio (endOfDay f_fin)
        (match m with
         | some mv => if 0 < mv then mv.toNat else 999999
         | none => 999999) 1 pages [] := by
  unfold run_scraper
  rw [h1, h2]

/-! ## Claim theorems -/

/-- C1: every record returned by a crawl run has a publication date `d`
with `startDate ≤ d ≤ endDate`, the end bound normalised to 23:59:59 of
its day before the comparison. -/
theorem claim1_pubdate_within_bounds :
    ∀ (s1 s2 : String) (m : Option Int) (pages : List (List Card)) (it : Item),
      it ∈ run_scraper s1 s2 m pages →
      ∃ f_inicio f_fin d, strptime_dmy s1 = some f_inicio ∧ strptime_dmy s2 = some f_fin ∧
        it.fecha_publicacion = strftime_dmy d ∧
        f_inicio.key ≤ d.key ∧ d.key ≤ (endOfDay f_fin).key := by
  intro s1 s2 m pages it h
  cases h1 : strptime_dmy s1 with
  | none =>
    unfold run_scraper at h
    rw [h1] at h
    simp at h
  | some f_inicio =>
    cases h2 : strptime_dmy s2 with
    | none =>
      unfold run_scraper at h
      rw [h1, h2] at h
      simp at h
    | some f_fin =>
      rw [run_scraper_eq h1 h2] at h
      rcases crawl_provenance pages 1 [] h with hmem | ⟨c, hco⟩
      · simp at hmem
      · obtain ⟨d, enlace, _, hle1, hle2, _, heq⟩ := accept_inv hco
        exact ⟨f_inicio, f_fin, d, rfl, rfl, by rw [heq]; rfl, hle2, hle1⟩

/-- Witness for C1 at a concrete run containing one accepted card. -/
theorem claim1_witness :
    ∃ f_inicio f_fin d,
      strptime_dmy "01/06/2025" = some f_inicio ∧ strptime_dmy "30/06/2025" = some f_fin ∧
      itemA.fecha_publicacion = strftime_dmy d ∧
      f_inicio.key ≤ d.key ∧ d.key ≤ (endOfDay f_fin).key :=
  claim1_pubdate_within_bounds "01/06/2025" "30/06/2025" (some 5) [[cardA]] itemA
    (by decide)

/-- C9 (implicit): a date bound that fails to parse as `dd/mm/yyyy` makes
`run_scraper` return the empty list without raising, whatever the listing
holds — no crawl is attempted. -/
theorem claim9_malformed_bounds_empty :
    ∀ (s1 s2 : String) (m : Option Int) (pages : List (List Card)),
      (strptime_dmy s1 = none ∨ strptime_dmy s2 = none) →
      run_scraper s1 s2 m pages = [] := by
  intro s1 s2 m pages h
  unfold run_scraper
  rcases h with h | h
  · rw [h]
  · rw [h]
    cases strptime_dmy s1 <;> rfl

/-- Witness for C9: a malformed start bound on a listing that would
otherwise produce a record. -/
theorem claim9_witness :
    run_scraper "99/99/2025" "30/06/2025" (some 5) [[cardA]] = [] :=
  claim9_malformed_bounds_empty "99/99/2025" "30/06/2025" (some 5) [[cardA]]
    (Or.inl rfl)

/-- C10 (implicit): in every returned record, `fecha_inicio` and
`fecha_fin` are each either a `dd/mm/yyyy`-shaped token extracted from
the card text or the sentinel string `"Ver Link"` — never null/absent. -/
theorem claim10_cronograma_never_null :
    ∀ (s1 s2 : String) (m : Option Int) (pages : List (List Card)) (it : Item),
      it ∈ run_scraper s1 s2 m pages →
      (isDateShape it.fecha_inicio = true ∨ it.fecha_inicio = "Ver Link") ∧
      (isDateShape it.fecha_fin = true ∨ it.fecha_fin = "Ver Link") := by
  intro s1 s2 m pages it h
  cases h1 : strptime_dmy s1 with
  | none =>
    unfold run_scraper at h
    rw [h1] at h
    simp at h
  | some f_inicio =>
    cases h2 : strptime_dmy s2 with
    | none =>
      unfold run_scraper at h
      rw [h1, h2] at h
      simp at h
    | some f_fin =>
      rw [run_scraper_eq h1 h2] at h
      rcases crawl_provenance pages 1 [] h with hmem | ⟨c, hco⟩
      · simp at hmem
      · obtain ⟨d, enlace, _, _, _, _, heq⟩ := accept_inv hco
        subst heq
        constructor
        · have hini : (buildItem c d enlace).fecha_inicio
              = (findAfterLabels inicioLabels c.text.data).getD "Ver Link" := rfl
          rw [hini]
          cases hf : findAfterLabels inicioLabels c.text.data with
          | none => exact Or.inr rfl
          | some t => exact Or.inl (findAfterLabels_shape c.text.data hf)
        · have hfin : (buildItem c d enlace).fecha_fin
              = (findAfterLabels finLabels c.text.data).getD "Ver Link" := rfl
          rw [hfin]
          cases hf : findAfterLabels finLabels c.text.data with
          | none => exact Or.inr rfl
          | some t => exact Or.inl (findAfterLabels_shape c.text.data hf)

/-- Witness for C10 at a concrete run. -/
theorem claim10_witness :
    (isDateShape itemA.fecha_inicio = true ∨ itemA.fecha_inicio = "Ver Link") ∧
    (isDateShape itemA.fecha_fin = true ∨ itemA.fecha_fin = "Ver Link") :=
  claim10_cronograma_never_null "01/06/2025" "30/06/2025" (some 5) [[cardA]] itemA
    (by decide)

/-- C7: every returned record has a non-empty absolute link (a URL with a
scheme, resolved against the listing base), and a card whose link cannot
be resolved is never accepted. -/
theorem claim7_links_absolute :
    (∀ (s1 s2 : String) (m : Option Int) (pages : List (List Card)) (it : Item),
       it ∈ run_scraper s1 s2 m pages → it.url ≠ "" ∧ hasScheme it.url = true) ∧
    (∀ (f_inicio f_fin : Datetime) (c : Card), resolveLink c = none →
       ∀ it, cardOutcome f_inicio f_fin c ≠ CardOutcome.accept it) := by
  constructor
  · intro s1 s2 m pages it h
    cases h1 : strptime_dmy s1 with
    | none =>
      unfold run_scraper at h
      rw [h1] at h
      simp at h
    | some f_inicio =>
      cases h2 : strptime_dmy s2 with
      | none =>
        unfold run_scraper at h
        rw [h1, h2] at h
        simp at h
      | some f_fin =>
        rw [run_scraper_eq h1 h2] at h
        rcases crawl_provenance pages 1 [] h with hmem | ⟨c, hco⟩
        · simp at hmem
        · obtain ⟨d, enlace, _, _, _, hr, heq⟩ := accept_inv hco
          subst heq
          have hurl : (buildItem c d enlace).url = enlace := rfl
          rw [hurl]
          exact resolveLink_some hr
  · intro f_inicio f_fin c hr it h
    unfold cardOutcome at h
    cases hp : parse_fecha_regex c.text with
    | error e => rw [hp] at h; cases h
    | ok o =>
      cases o with
      | none => rw [hp] at h; cases h
      | some d =>
        rw [hp] at h
        dsimp only at h
        split_ifs at h
        rw [hr] at h
        cases h

/-- Witness for C7 at a concrete run. -/
theorem claim7_witness :
    itemA.url ≠ "" ∧ hasScheme itemA.url = true :=
  claim7_links_absolute.1 "01/06/2025" "30/06/2025" (some 5) [[cardA]] itemA
    (by decide)

/-! ## Early termination (C2) -/

/-- Once the inner card loop reaches a stopping card, the cards after it
on the same page are irrelevant, and whenever the loop nevertheless exits
un-stopped it is because the cap was already reached. -/
theorem processCards_stop_suffix {f_inicio f_fin : Datetime} {c : Card}
    (hstop : cardOutcome f_inicio f_fin c = CardOutcome.stop) (limit : Nat)
    (cs2 : List Card) :
    ∀ (cs1 : List Card) (acc : List Item),
      processCards f_inicio f_fin limit (cs1 ++ c :: cs2) acc =
        processCards f_inicio f_fin limit (cs1 ++ [c]) acc ∧
      ((processCards f_inicio f_fin limit (cs1 ++ [c]) acc).2 = false →
        limit ≤ (processCards f_inicio f_fin limit (cs1 ++ [c]) acc).1.length) := by
  intro cs1
  induction cs1 with
  | nil =>
    intro acc
    by_cases hl : limit ≤ acc.length
    · simp only [List.nil_append, processCards, if_pos hl]
      exact ⟨trivial, fun _ => hl⟩
    · simp only [List.nil_append, processCards, if_neg hl, hstop]
      exact ⟨trivial, fun hfalse => by cases hfalse⟩
  | cons a cs1 ih =>
    intro acc
    by_cases hl : limit ≤ acc.length
    · simp only [List.cons_append, processCards, if_pos hl]
      exact ⟨trivial, fun _ => hl⟩
    · cases hco : cardOutcome f_inicio f_fin a with
      | skip =>
        simp only [List.cons_append, processCards, if_neg hl, hco]
        exact ih acc
      | stop =>
        simp only [List.cons_append, processCards, if_neg hl, hco]
        exact ⟨trivial, fun hfalse => by cases hfalse⟩
      | accept it' =>
        simp only [List.cons_append, processCards, if_neg hl, hco]
        exact ih (acc ++ [it'])

/-- A crawl whose accumulator already meets the cap fetches nothing more. -/
theorem crawlPages_limit_reached {f_inicio f_fin : Datetime} {limit : Nat}
    {acc : List Item} (hl : limit ≤ acc.length) :
    ∀ (page_count : Nat) (pages : List (List Card)),
      crawlPages f_inicio f_fin limit page_count pages acc = acc := by
  intro pc pages
  cases pages with
  | nil => rfl
  | cons cards rest =>
    by_cases h1 : max_paginas < pc
    · simp only [crawlPages, if_pos h1]
    · simp only [crawlPages, if_neg h1, if_pos hl]

/-- The page-level version: cards after the stopping card and all later
pages never influence the crawl's result. -/
theorem crawlPages_stop_suffix {f_inicio f_fin : Datetime} {c : Card}
    (hstop : cardOutcome f_inicio f_fin c = CardOutcome.stop) (limit : Nat)
    (cs1 cs2 : List Card) (post : List (List Card)) :
    ∀ (pre : List (List Card)) (page_count : Nat) (acc : List Item),
      crawlPages f_inicio f_fin limit page_count (pre ++ (cs1 ++ c :: cs2) :: post) acc =
      crawlPages f_inicio f_fin limit page_count (pre ++ [cs1 ++ [c]]) acc := by
  intro pre
  induction pre with
  | nil =>
    intro pc acc
    by_cases h1 : max_paginas < pc
    · simp only [List.nil_append, crawlPages, if_pos h1]
    · by_cases h2 : limit ≤ acc.length
      · simp only [List.nil_append, crawlPages, if_neg h1, if_pos h2]
      · have hne1 : (cs1 ++ c :: cs2).isEmpty = false := by
          cases cs1 <;> simp [List.isEmpty]
        have hne2 : (cs1 ++ [c]).isEmpty = false := by
          cases cs1 <;> simp [List.isEmpty]
        obtain ⟨heq, himp⟩ := processCards_stop_suffix hstop limit cs2 cs1 acc
        simp only [List.nil_append, crawlPages, if_neg h1, if_neg h2, hne1, hne2,
          Bool.false_eq_true, if_false, heq]
        rcases hp : processCards f_inicio f_fin limit (cs1 ++ [c]) acc with ⟨acc2, st⟩
        cases st with
        | true => rfl
        | false =>
          dsimp only
          have hlim : limit ≤ acc2.length := by
            have h := himp (by rw [hp])
            rw [hp] at h
            exact h
          rw [crawlPages_limit_reached hlim (pc + 1) post]
  | cons p pre ih =>
    intro pc acc
    by_cases h1 : max_paginas < pc
    · simp only [List.cons_append, crawlPages, if_pos h1]
    · by_cases h2 : limit ≤ acc.length
      · simp only [List.cons_append, crawlPages, if_neg h1, if_pos h2]
      · by_cases h3 : p.isEmpty
        · simp only [List.cons_append, crawlPages, if_neg h1, if_neg h2, h3, if_true]
        · simp only [List.cons_append, crawlPages, if_neg h1, if_neg h2,
            Bool.not_eq_true] at h3 ⊢
          simp only [h3, Bool.false_eq_true, if_false]
          rcases hp : processCards f_inicio f_fin limit p acc with ⟨acc2, st⟩
          cases st with
          | true => rfl
          | false => exact ih (pc + 1) acc2

/-- C2: early termination is irreversible — as soon as a card whose
parsed date precedes the start bound is met (and it is not skipped as too
new), the rest of its page and every later page contribute nothing: the
crawl computes the same result as if they were absent. -/
theorem claim2_early_termination_irreversible :
    ∀ (s1 s2 : String) (m : Option Int) (pre : List (List Card)) (cs1 : List Card)
      (c : Card) (cs2 : List Card) (post : List (List Card))
      (f_inicio f_fin d : Datetime),
      strptime_dmy s1 = some f_inicio → strptime_dmy s2 = some f_fin →
      parse_fecha_regex c.text = Except.ok (some d) →
      d.key ≤ (endOfDay f_fin).key → d.key < f_inicio.key →
      run_scraper s1 s2 m (pre ++ (cs1 ++ c :: cs2) :: post) =
      run_scraper s1 s2 m (pre ++ [cs1 ++ [c]]) := by
  intro s1 s2 m pre cs1 c cs2 post f_inicio f_fin d h1 h2 hp hle hlt
  have hstop : cardOutcome f_inicio (endOfDay f_fin) c = CardOutcome.stop := by
    unfold cardOutcome
    rw [hp]
    dsimp only
    rw [if_neg (Nat.not_lt.mpr hle), if_pos hlt]
  rw [run_scraper_eq h1 h2, run_scraper_eq h1 h2]
  exact crawlPages_stop_suffix hstop _ cs1 cs2 post pre 1 []

/-- Witness for C2: a concrete listing where the stopping card is
followed by an in-range card on its page and by a whole later page. -/
theorem claim2_witness :
    run_scraper "01/06/2025" "30/06/2025" (some 5)
        ([[cardA]] ++ ([cardA] ++ cardStop :: [cardA]) :: [[cardA]]) =
      run_scraper "01/06/2025" "30/06/2025" (some 5) ([[cardA]] ++ [[cardA] ++ [cardStop]]) :=
  claim2_early_termination_irreversible "01/06/2025" "30/06/2025" (some 5)
    [[cardA]] [cardA] cardStop [cardA] [[cardA]]
    ⟨2025, 6, 1, 0, 0, 0⟩ ⟨2025, 6, 30, 0, 0, 0⟩ ⟨2020, 1, 1, 0, 0, 0⟩
    (by decide) (by decide) (by rfl) (by decide) (by decide)

/-! ## The result-count cap (C8) -/

theorem processCards_length_le {f_inicio f_fin : Datetime} {limit : Nat} :
    ∀ (cs : List Card) (acc : List Item),
      (processCards f_inicio f_fin limit cs acc).1.length ≤ max acc.length limit := by
  intro cs
  induction cs with
  | nil => intro acc; exact le_max_left _ _
  | cons c rest ih =>
    intro acc
    by_cases hl : limit ≤ acc.length
    · simp only [processCards, if_pos hl]
      exact le_max_left _ _
    · cases hco : cardOutcome f_inicio f_fin c with
      | skip =>
        simp only [processCards, if_neg hl, hco]
        exact ih acc
      | stop =>
        simp only [processCards, if_neg hl, hco]
        exact le_max_left _ _
      | accept it =>
        simp only [processCards, if_neg hl, hco]
        have h := ih (acc ++ [it])
        simp only [List.length_append, List.length_singleton] at h
        omega

theorem crawlPages_length_le {f_inicio f_fin : Datetime} {limit : Nat} :
    ∀ (pages : List (List Card)) (page_count : Nat) (acc : List Item),
      (crawlPages f_inicio f_fin limit page_count pages acc).length ≤ max acc.length limit := by
  intro pages
  induction pages with
  | nil => intro pc acc; exact le_max_left _ _
  | cons cards rest ih =>
    intro pc acc
    by_cases h1 : max_paginas < pc
    · simp only [crawlPages, if_pos h1]
      exact le_max_left _ _
    · by_cases h2 : limit ≤ acc.length
      · simp only [crawlPages, if_neg h1, if_pos h2]
        exact le_max_left _ _
      · by_cases h3 : cards.isEmpty
        · simp only [crawlPages, if_neg h1, if_neg h2, h3, if_true]
          exact le_max_left _ _
        · simp only [Bool.not_eq_true] at h3
          simp only [crawlPages, if_neg h1, if_neg h2, h3, Bool.false_eq_true, if_false]
          have hproc := @processCards_length_le f_inicio f_fin limit cards acc
          rcases hp : processCards f_inicio f_fin limit cards acc with ⟨acc2, st⟩
          rw [hp] at hproc
          cases st with
          | true => exact hproc
          | false =>
            dsimp only
            have hproc2 : acc2.length ≤ max acc.length limit := hproc
            have h := ih (pc + 1) acc2
            omega

/-- The effective `limit_count` of a run. -/
theorem run_scraper_length_le (s1 s2 : String) (m : Option Int)
    (pages : List (List Card)) :
    (run_scraper s1 s2 m pages).length ≤
      (match m with
       | some mv => if 0 < mv then mv.toNat else 999999
       | none => 999999) := by
  cases h1 : strptime_dmy s1 with
  | none =>
    unfold run_scraper
    rw [h1]
    simp
  | some f_inicio =>
    cases h2 : strptime_dmy s2 with
    | none =>
      unfold run_scraper
      rw [h1, h2]
      simp
    | some f_fin =>
      rw [run_scraper_eq h1 h2]
      have h := @crawlPages_length_le f_inicio (endOfDay f_fin)
        (match m with
         | some mv => if 0 < mv then mv.toNat else 999999
         | none => 999999) pages 1 []
      simpa using h

/-- C8 (amended): a positive cap bounds the result length by the cap;
an absent or non-positive cap is replaced by the default cap 999999
(rather than leaving the run unbounded). -/
theorem claim8_amended_cap :
    ∀ (s1 s2 : String) (m : Int) (pages : List (List Card)),
      (0 < m → (run_scraper s1 s2 (some m) pages).length ≤ m.toNat) ∧
      (m ≤ 0 → (run_scraper s1 s2 (some m) pages).length ≤ 999999) ∧
      (run_scraper s1 s2 none pages).length ≤ 999999 := by
  intro s1 s2 m pages
  refine ⟨fun hm => ?_, fun hm => ?_, ?_⟩
  · have h := run_scraper_length_le s1 s2 (some m) pages
    simpa [if_pos hm] using h
  · have h := run_scraper_length_le s1 s2 (some m) pages
    simpa [if_neg (Int.not_lt.mpr hm)] using h
  · exact run_scraper_length_le s1 s2 none pages

/-- Witness for the amended C8, at a positive cap, a zero cap and an
absent cap. -/
theorem claim8_amended_witness :
    (run_scraper "01/06/2025" "30/06/2025" (some 1) [[cardA, cardA]]).length ≤ 1 ∧
    (run_scraper "01/06/2025" "30/06/2025" (some 0) [[cardA]]).length ≤ 999999 ∧
    (run_scraper "01/06/2025" "30/06/2025" none [[cardA]]).length ≤ 999999 :=
  ⟨(claim8_amended_cap "01/06/2025" "30/06/2025" 1 [[cardA, cardA]]).1 (by decide),
   (claim8_amended_cap "01/06/2025" "30/06/2025" 0 [[cardA]]).2.1 (by decide),
   (claim8_amended_cap "01/06/2025" "30/06/2025" 0 [[cardA]]).2.2⟩

/-- The inner loop on `n` copies of an accepted card fills the
accumulator up to the cap and never raises the stop flag. -/
theorem processCards_replicate_accept {f_inicio f_fin : Datetime} {c : Card} {it : Item}
    (hacc : cardOutcome f_inicio f_fin c = CardOutcome.accept it) (limit : Nat) :
    ∀ (n : Nat) (acc : List Item),
      processCards f_inicio f_fin limit (List.replicate n c) acc =
        (acc ++ List.replicate (min (limit - acc.length) n) it, false) := by
  intro n
  induction n with
  | zero => intro acc; simp [processCards]
  | succ n ih =>
    intro acc
    rw [List.replicate_succ]
    by_cases hl : limit ≤ acc.length
    · have hz : limit - acc.length = 0 := Nat.sub_eq_zero_of_le hl
      simp [processCards, if_pos hl, hz]
    · simp only [processCards, if_neg hl, hacc]
      rw [ih (acc ++ [it])]
      have hk : min (limit - (acc ++ [it]).length) n + 1 = min (limit - acc.length) (n + 1) := by
        simp only [List.length_append, List.length_singleton]
        omega
      rw [List.append_assoc]
      congr 1
      rw [List.singleton_append, ← List.replicate_succ, hk]

/-- A single listing page holding `n` copies of one accepted card yields
`min limit n` copies of its record. -/
theorem crawl_single_page_accept {f_inicio f_fin : Datetime} {c : Card} {it : Item}
    (hacc : cardOutcome f_inicio f_fin c = CardOutcome.accept it) (limit n : Nat)
    (hlim : 0 < limit) (hn : n ≠ 0) :
    crawlPages f_inicio f_fin limit 1 [List.replicate n c] [] =
      List.replicate (min limit n) it := by
  have hR : (List.replicate n c).isEmpty = false := by
    cases n with
    | zero => exact absurd rfl hn
    | succ k => rw [List.replicate_succ]; rfl
  simp only [crawlPages, hR, Bool.false_eq_true, if_false]
  rw [if_neg (by decide : ¬ max_paginas < 1),
    if_neg (by simp; omega : ¬ limit ≤ ([] : List Item).length)]
  rw [processCards_replicate_accept hacc limit n []]
  simp

/-- Counterexample to C8 as stated: with a non-positive cap ("unbounded"
per the claim) and more than 999999 in-range cards on the page, the run
returns exactly 999999 records — the hard-coded default cap truncates the
result. -/
theorem claim8_counterexample :
    (run_scraper "01/01/2025" "31/12/2025" (some 0)
        [List.replicate 1000000 cardA]).length = 999999 ∧
    999999 < 1000000 := by
  constructor
  · have h1 : strptime_dmy "01/01/2025" = some ⟨2025, 1, 1, 0, 0, 0⟩ := rfl
    have h2 : strptime_dmy "31/12/2025" = some ⟨2025, 12, 31, 0, 0, 0⟩ := rfl
    rw [run_scraper_eq h1 h2]
    have hacc : cardOutcome ⟨2025, 1, 1, 0, 0, 0⟩ (endOfDay ⟨2025, 12, 31, 0, 0, 0⟩) cardA
        = CardOutcome.accept (buildItem cardA ⟨2025, 6, 15, 0, 0, 0⟩ urlA) := by decide
    have hlim : (match (some (0 : Int)) with
        | some mv => if 0 < mv then mv.toNat else 999999
        | none => 999999) = 999999 := rfl
    rw [hlim]
    rw [crawl_single_page_accept hacc 999999 1000000 (by norm_num) (by norm_num)]
    rw [List.length_replicate]
    norm_num
  · decide

/-! ## Enrichment sentinels (C3) -/

/-- C3 (spec-modelled): a record with no link gets the "no link" sentinel
and the fetch function is never consulted (the outcome is identical for
any two fetch functions); a record whose fetch throws gets the "fetch
error" sentinel on that record alone; the pass maps over every record of
the batch, so a failing record never aborts it. -/
theorem claim3_enrichment_sentinels :
    (∀ (f g : String → Except Unit DetailPage) (it : Item), it.url = "" →
       enrich_item f it = (it, "no link") ∧ enrich_item f it = enrich_item g it) ∧
    (∀ (f : String → Except Unit DetailPage) (it : Item), it.url ≠ "" →
       f it.url = Except.error () → enrich_item f it = (it, "fetch error")) ∧
    (∀ (f : String → Except Unit DetailPage) (items : List Item),
       (enrich_pass f items).length = items.length ∧
       ∀ it ∈ items, enrich_item f it ∈ enrich_pass f items) := by
  refine ⟨?_, ?_, ?_⟩
  · intro f g it h
    constructor
    · simp [enrich_item, h]
    · simp [enrich_item, h]
  · intro f it h hf
    simp [enrich_item, h, hf]
  · intro f items
    constructor
    · simp [enrich_pass]
    · intro it hmem
      exact List.mem_map_of_mem (enrich_item f) hmem

/-- Witness for C3: a linkless record under two different fetch
functions, and a linked record whose fetch fails, inside a two-record
batch that still enriches fully. -/
theorem claim3_witness :
    (enrich_item (fun _ => Except.error ()) { itemA with url := "" } =
        ({ itemA with url := "" }, "no link") ∧
      enrich_item (fun _ => Except.error ()) { itemA with url := "" } =
        enrich_item (fun _ => Except.ok ⟨[], ""⟩) { itemA with url := "" }) ∧
    enrich_item (fun _ => Except.error ()) itemA = (itemA, "fetch error") ∧
    (enrich_pass (fun _ => Except.error ()) [itemA, { itemA with url := "" }]).length = 2 :=
  ⟨claim3_enrichment_sentinels.1 (fun _ => Except.error ()) (fun _ => Except.ok ⟨[], ""⟩)
      { itemA with url := "" } rfl,
   claim3_enrichment_sentinels.2.1 (fun _ => Except.error ()) itemA (by decide) rfl,
   (claim3_enrichment_sentinels.2.2 (fun _ => Except.error ())
      [itemA, { itemA with url := "" }]).1⟩

/-! ## The date extractor's raising branch (C5) -/

/-- Counterexample to C5 as stated: a token found after the
"Publicación" label that is not a valid calendar date makes
`parse_fecha_regex` raise `ValueError` (the label branch calls `strptime`
outside any `try`), instead of returning "not found". -/
theorem claim5_counterexample :
    parse_fecha_regex "Publicación: 31/02/2025" = Except.error () ∧
    (Except.error () : Except Unit (Option Datetime)) ≠ Except.ok none := by
  constructor
  · rfl
  · intro h
    cases h

/-- C5 (amended): only the whole-text fallback treats an invalid calendar
token as "not found"; a `dd/mm/yyyy`-shaped token located by the
"Publicación"-label search that fails calendar validation raises to the
caller (where the per-card handler absorbs it). -/
theorem claim5_amended_parse_errors :
    (∀ (t : String) (tok : String),
       findAfterLabels pubLabels t.data = some tok → strptime_dmy tok = none →
       parse_fecha_regex t = Except.error ()) ∧
    (∀ (t : String) (tok : String),
       findAfterLabels pubLabels t.data = none → findDateToken t.data = some tok →
       strptime_dmy tok = none →
       parse_fecha_regex t = Except.ok none) := by
  constructor
  · intro t tok hlab hbad
    unfold parse_fecha_regex
    rw [hlab]
    dsimp only
    rw [hbad]
  · intro t tok hlab htok hbad
    unfold parse_fecha_regex
    rw [hlab]
    dsimp only
    rw [htok]
    dsimp only
    rw [hbad]

/-- Witness for the amended C5: an invalid labelled token raises, an
invalid fallback token is absorbed to "not found". -/
theorem claim5_amended_witness :
    parse_fecha_regex "Publicación: 99/99/2025" = Except.error () ∧
    parse_fecha_regex "vence 99/99/2025" = Except.ok none :=
  ⟨claim5_amended_parse_errors.1 "Publicación: 99/99/2025" "99/99/2025" rfl rfl,
   claim5_amended_parse_errors.2 "vence 99/99/2025" "99/99/2025" rfl rfl rfl⟩

/-! ## Region inference (C4) -/

/-- Counterexample to C4 as stated: the captured phrase "LIMA NORTE"
contains the department "LIMA", but the function returns the whole
captured phrase, not the department name. -/
theorem claim4_counterexample :
    inferir_region "" "Ubicación: LIMA NORTE" = "LIMA NORTE" ∧
    ("LIMA NORTE" : String) ≠ "LIMA" ∧
    DEPARTAMENTOS_PERU.contains "LIMA NORTE" = false ∧
    strContains "LIMA NORTE" "LIMA" = true := by
  refine ⟨by decide, by decide, by decide, by decide⟩

/-- C4 (amended): the "Ubicación:" label is preferred over whole-text
scanning — whenever the label's captured phrase contains one of the 25
department names, the function returns that captured phrase (stripped),
which equals the department name exactly when the phrase consists of the
name alone; in particular "Ubicación: LIMA" on its own line wins over a
"CUSCO" occurring elsewhere and yields "LIMA". -/
theorem claim4_amended_region_label_priority :
    (∀ (entidad texto_tarjeta : String) (p : String),
       ubicacionCapture (pyUpper (entidad ++ " " ++ texto_tarjeta)).data = some p →
       (∃ d ∈ DEPARTAMENTOS_PERU, strContains p d = true) →
       inferir_region entidad texto_tarjeta = pyStrip p) ∧
    inferir_region "Municipalidad X" "Ubicación: LIMA\nGobierno Regional CUSCO" = "LIMA" := by
  constructor
  · intro entidad texto p hcap hdep
    unfold inferir_region
    dsimp only
    rw [hcap]
    dsimp only
    obtain ⟨d, hd, hcont⟩ := hdep
    have hfind : (DEPARTAMENTOS_PERU.find? (fun d => strContains p d)).isSome := by
      rw [List.find?_isSome]
      exact ⟨d, hd, hcont⟩
    cases hf : DEPARTAMENTOS_PERU.find? (fun d => strContains p d) with
    | none => rw [hf] at hfind; cases hfind
    | some d' => rfl
  · decide

/-- Witness for the amended C4 at a concrete labelled card. -/
theorem claim4_amended_witness :
    inferir_region "" "Ubicación: PUNO" = pyStrip "PUNO" :=
  claim4_amended_region_label_priority.1 "" "Ubicación: PUNO" "PUNO" rfl
    ⟨"PUNO", by decide, by decide⟩

/-! ## Object-type classification (C6) -/

/-- C6: the classifier always returns one of the five categories, checks
the explicit prefix/marker before any keyword heuristic, and classifies
the three scenario descriptions as Work, Good (via keyword fallback) and
Other respectively. -/
theorem claim6_tipo_classification :
    (∀ desc : String,
       extraer_tipo_exacto desc = "Bien" ∨ extraer_tipo_exacto desc = "Servicio" ∨
       extraer_tipo_exacto desc = "Obra" ∨ extraer_tipo_exacto desc = "Consultoría" ∨
       extraer_tipo_exacto desc = "Otro") ∧
    (∀ desc : String,
       (strStartsWith (tipoNorm desc) "BIEN" ∨ strContains (tipoNorm desc) "BIEN:") →
       extraer_tipo_exacto desc = "Bien") ∧
    extraer_tipo_exacto "OBRA: MEJORAMIENTO DE PISTA" = "Obra" ∧
    extraer_tipo_exacto "ADQUISICION DE COMBUSTIBLE" = "Bien" ∧
    extraer_tipo_exacto "XYZ 12345" = "Otro" := by
  refine ⟨?_, ?_, by decide, by decide, by decide⟩
  · intro desc
    unfold extraer_tipo_exacto
    dsimp only
    split_ifs <;> simp
  · intro desc h
    unfold extraer_tipo_exacto
    dsimp only
    rw [if_pos h]

/-- Witness for C6's hypothesis-bearing conjunct: an explicit "Bien:"
marker beats the Work keyword also present in the description. -/
theorem claim6_witness :
    extraer_tipo_exacto "Bien: MATERIALES PARA CONSTRUCCION" = "Bien" :=
  claim6_tipo_classification.2.1 "Bien: MATERIALES PARA CONSTRUCCION"
    (Or.inr (by decide))

end Seace
